import Mathlib

/-!
Shallow embedding of the 0XCTF25 submission-and-scoring engine.

Sources embedded here:
* `src/shared/schema.ts` — the table shapes (users, challenges, submissions,
  solves, hintUsage) and their declared unique constraints.
* `src/server/storage.ts` — `DatabaseStorage`: `updateUserScore`, `createSolve`,
  `hasSolved`, `createSubmission`, `useHint`, `getUserHintUsage`,
  `getLeaderboard`, `getUserRank`.
* `src/unnamed/part_004` — the Express routes: the in-memory `rateLimit`
  middleware, `POST /api/challenges/:id/submit`, the hint route
  `POST /api/challenges/:id/hints/:index`, and the challenge CRUD routes with
  their flag-hash sanitization.

Modelling conventions: database rows are Lean structures; DB-generated
surrogate `id` columns and `timestamp` defaults that no modelled behaviour
reads (`solves.id`, `solves.solvedAt`, `submissions.id`, `submissions.submittedAt`,
`hintUsage.id`, `hintUsage.usedAt`) are not carried.  Postgres `integer`
columns are `Int`; `Date.now()` millisecond clocks are `Nat`.  The bcrypt-style
`comparePasswords` checker from the (absent) `auth` module is passed in as an
opaque boolean function `verify : String → String → Bool`, exactly as the
route only ever observes its boolean verdict.  A single `await storage.…` call
is one atomic step: Postgres executes each single SQL statement atomically,
while distinct `await`s of one handler may interleave with other requests on
the Node event loop, which is made explicit in the two-request interleaving
model further down.
-/

namespace CTF

/-- A row of the `users` table (`src/shared/schema.ts`).  `isAdmin` is the
admin flag that `storage.ts` (`getLeaderboard`) and the client read from user
rows; note that `schema.ts` itself declares no `is_admin` column, a
schema/storage discrepancy recorded by `usersDeclaredColumns` below. -/
structure User where
  id : String
  username : String
  email : String
  password : String
  score : Int
  isAdmin : Bool
  createdAt : Nat
deriving DecidableEq, Repr

/-- A hint entry of a challenge's `hints` jsonb column: `{text, cost}`. -/
structure Hint where
  text : String
  cost : Int
deriving DecidableEq, Repr

/-- A row of the `challenges` table.  The `slug`, `flagSalt` and jsonb
`artifacts` values are opaque strings/payloads produced by `createChallenge`. -/
structure Challenge where
  id : String
  title : String
  slug : String
  description : String
  category : String
  difficulty : String
  points : Int
  flagHash : String
  flagSalt : String
  published : Bool
  creatorId : String
  hints : List Hint
  createdAt : Nat
deriving DecidableEq, Repr

/-- A row of the append-only `submissions` audit table. -/
structure Submission where
  userId : String
  challengeId : String
  flagAttempt : String
  isCorrect : Bool
  ipAddress : String
  userAgent : String
deriving DecidableEq, Repr

/-- A row of the `solves` table: columns beyond the surrogate id/timestamp are
exactly `user_id` and `challenge_id`. -/
structure Solve where
  userId : String
  challengeId : String
deriving DecidableEq, Repr

/-- A row of the `hint_usage` table. -/
structure HintUsage where
  userId : String
  challengeId : String
  hintIndex : Nat
  pointsDeducted : Int
deriving DecidableEq, Repr

/-- The database state: one list of rows per table, in insertion order. -/
structure Store where
  users : List User
  challenges : List Challenge
  submissions : List Submission
  solves : List Solve
  hintUsages : List HintUsage
deriving DecidableEq, Repr

/-- The column names `schema.ts` declares for the `users` table.  There is no
`is_admin` column even though `storage.ts` filters on `users.isAdmin`. -/
def usersDeclaredColumns : List String :=
  ["id", "username", "email", "password", "score", "created_at", "updated_at"]

/-- The uniqueness constraints `schema.ts` declares on the `solves` table:
only the primary key on the surrogate `id`.  No unique constraint covers the
(`user_id`, `challenge_id`) pair. -/
def solvesUniqueConstraints : List (List String) :=
  [["id"]]

/-- The uniqueness constraints `schema.ts` declares on the `hint_usage` table:
again only the primary key on `id`; nothing covers
(`user_id`, `challenge_id`, `hint_index`). -/
def hintUsageUniqueConstraints : List (List String) :=
  [["id"]]

/-- `DatabaseStorage.getUser`: `select … where eq(users.id, id)`, first row. -/
def getUser (s : Store) (id : String) : Option User :=
  s.users.find? (fun u => u.id == id)

/-- The score column of a user row, looked up by id (for stating theorems). -/
def scoreOf (s : Store) (id : String) : Option Int :=
  (getUser s id).map (fun u => u.score)

/-- `DatabaseStorage.updateUserScore`: a single SQL
`update users set score = score + points where id = userId` — a relative,
in-database adjustment executed as one atomic statement. -/
def updateUserScore (s : Store) (userId : String) (points : Int) : Store :=
  { s with users := s.users.map (fun u =>
      if u.id == userId then { u with score := u.score + points } else u) }

/-- `DatabaseStorage.getChallenge`: `select … where eq(challenges.id, id)`. -/
def getChallenge (s : Store) (id : String) : Option Challenge :=
  s.challenges.find? (fun c => c.id == id)

/-- `DatabaseStorage.createSolve`: a bare
`insert into solves values (userId, challengeId)`.  The `solves` table has no
unique constraint on the pair (see `solvesUniqueConstraints`), so the insert
succeeds even when an equal pair is already present. -/
def createSolve (s : Store) (userId challengeId : String) : Store :=
  { s with solves := s.solves ++ [⟨userId, challengeId⟩] }

/-- `DatabaseStorage.hasSolved`: select by (userId, challengeId), truthiness
of the first row. -/
def hasSolved (s : Store) (userId challengeId : String) : Bool :=
  s.solves.any (fun x => x.userId == userId && x.challengeId == challengeId)

/-- `DatabaseStorage.createSubmission`: append one audit row. -/
def createSubmission (s : Store) (row : Submission) : Store :=
  { s with submissions := s.submissions ++ [row] }

/-- `DatabaseStorage.useHint`: a bare insert into `hint_usage` (no unique
constraint on the triple, see `hintUsageUniqueConstraints`). -/
def useHint (s : Store) (userId challengeId : String) (hintIndex : Nat)
    (pointsDeducted : Int) : Store :=
  { s with hintUsages := s.hintUsages ++ [⟨userId, challengeId, hintIndex, pointsDeducted⟩] }

/-- `DatabaseStorage.getUserHintUsage`: rows for (userId, challengeId). -/
def getUserHintUsage (s : Store) (userId challengeId : String) : List HintUsage :=
  s.hintUsages.filter (fun h => h.userId == userId && h.challengeId == challengeId)

/-- `DatabaseStorage.getUserRank`: `getUser`, then
`select count() from users where users.score > user.score`, plus one.  The
count ranges over ALL user rows — unlike `getLeaderboard` it applies no
`isAdmin` filter — and a missing user yields 0. -/
def getUserRank (s : Store) (userId : String) : Nat :=
  match getUser s userId with
  | none => 0
  | some u => (s.users.filter (fun v => u.score < v.score)).length + 1

/-- The joined pre-sort rows of `DatabaseStorage.getLeaderboard`: non-admin
users with their solve counts (`left join solves … group by users.id`, so a
user with no solves counts 0). -/
def leaderboardRows (s : Store) : List (User × Nat) :=
  (s.users.filter (fun u => !u.isAdmin)).map
    (fun u => (u, (s.solves.filter (fun x => x.userId == u.id)).length))

/-- The `orderBy(desc(users.score), desc(count(solves.id)))` comparison of
`getLeaderboard`: score descending, then solve count descending.  The SQL
declares no further key, so the relative order of rows tied on both keys is
left unspecified by the query; this embedding realizes one legal refinement
(a stable sort over table order). -/
def lbRel : (User × Nat) → (User × Nat) → Prop := fun a b =>
  b.1.score < a.1.score ∨ (a.1.score = b.1.score ∧ b.2 ≤ a.2)

instance : DecidableRel lbRel := fun a b => by unfold lbRel; infer_instance

instance : IsTotal (User × Nat) lbRel := by
  constructor; intro a b; unfold lbRel; omega

instance : IsTrans (User × Nat) lbRel := by
  constructor; intro a b c; unfold lbRel; omega

/-- One returned leaderboard row: the user columns spread together with the
computed `rank` and `solveCount` (`{...row.user, rank: index + 1, solveCount}`). -/
structure LBEntry where
  id : String
  username : String
  score : Int
  isAdmin : Bool
  createdAt : Nat
  rank : Nat
  solveCount : Nat
deriving DecidableEq, Repr

/-- The `result.map((row, index) => ({...row.user, rank: index + 1, …}))`
step: number the sorted rows contiguously starting from `k`. -/
def assignRanks : Nat → List (User × Nat) → List LBEntry
  | _, [] => []
  | k, (u, sc) :: rest =>
      ⟨u.id, u.username, u.score, u.isAdmin, u.createdAt, k, sc⟩ :: assignRanks (k + 1) rest

/-- `DatabaseStorage.getLeaderboard`: filter out admins, join solve counts,
order by (score desc, solveCount desc), apply the limit, then assign ranks
`index + 1`. -/
def getLeaderboard (s : Store) (limit : Nat) : List LBEntry :=
  assignRanks 1 (((leaderboardRows s).insertionSort lbRel).take limit)

/-- A sequence of `updateUserScore` calls applied in order (the shape of every
score mutation the routes perform: positive deltas on solves, negative on
hints). -/
def applyDeltas (s : Store) (userId : String) (deltas : List Int) : Store :=
  deltas.foldl (fun st d => updateUserScore st userId d) s

/-! ### The `rateLimit` middleware (`src/unnamed/part_004`, lines 10-35)

The store is a `Map` keyed by ``(user id or ip) + ":" + path``; for the submit
route the path embeds the challenge id, so each key is one (principal,
challenge) pair.  All times are `Date.now()` milliseconds. -/

/-- `windowMs = 60 * 1000`. -/
def windowMs : Nat := 60 * 1000

/-- `maxAttempts = 10`. -/
def maxAttempts : Nat := 10

/-- One value of `rateLimitStore`: `{ count, resetTime }`. -/
structure RateEntry where
  count : Nat
  resetTime : Nat
deriving DecidableEq, Repr

/-- One run of the `rateLimit` middleware on the entry stored under the
caller's key.  Returns `none` when the request is passed on to the handler
(`next()`) and `some retryAfter` when it is rejected with HTTP 429, together
with the entry left in the map.  Mirrors the source branch for branch:
missing or expired entry resets the window and allows; `count >= maxAttempts`
rejects with `Math.ceil((resetTime - now) / 1000)` seconds and leaves the
entry untouched; otherwise the count is incremented and the request allowed. -/
def rateLimitStep (entry : Option RateEntry) (now : Nat) : Option Nat × RateEntry :=
  match entry with
  | none => (none, ⟨1, now + windowMs⟩)
  | some cur =>
      if cur.resetTime < now then (none, ⟨1, now + windowMs⟩)
      else if maxAttempts ≤ cur.count then
        (some ((cur.resetTime - now + 999) / 1000), cur)
      else (none, ⟨cur.count + 1, cur.resetTime⟩)

/-- Run the middleware over a list of request times in order, recording
whether every request was allowed and the final stored entry. -/
def runWindow (entry : Option RateEntry) : List Nat → Bool × Option RateEntry
  | [] => (true, entry)
  | now :: rest =>
      match rateLimitStep entry now with
      | (none, e) =>
          let r := runWindow (some e) rest
          (r.1, r.2)
      | (some _, e) => (false, some e)

/-! ### `POST /api/challenges/:id/submit` (`src/unnamed/part_004`, lines 196-249) -/

/-- The JSON responses of the submit route.  `ok` is the 200 body
`{correct, message}`; its `pointsAwarded` component records the value of the
JSON key of that name, which the source never writes (`none`). -/
inductive SubmitResult where
  | badRequest (message : String)
  | notFound (message : String)
  | ok (correct : Bool) (message : String) (pointsAwarded : Option Int)
  | serverError (message : String)
  | rateLimited (message : String) (retryAfter : Nat)
deriving DecidableEq, Repr

/-- The submit handler after the middleware, in source order: missing flag →
400; unknown challenge → 404; unpublished → 400; existing solve → 400
"already solved"; otherwise judge the flag with `comparePasswords` (passed in
as `verify`), always append the audit `Submission`, and on a correct flag
`createSolve` then `updateUserScore` by `challenge.points`, answering
`{correct: true, message: "Congratulations! Flag accepted."}` with no
`pointsAwarded` key. -/
def submitFlag (verify : String → String → Bool) (s : Store)
    (userId challengeId flag ip ua : String) : SubmitResult × Store :=
  if flag = "" then (.badRequest "Flag is required", s)
  else
    match getChallenge s challengeId with
    | none => (.notFound "Challenge not found", s)
    | some ch =>
        if !ch.published then (.badRequest "Challenge is not published", s)
        else if hasSolved s userId challengeId then
          (.badRequest "You have already solved this challenge", s)
        else
          let isCorrect := verify flag ch.flagHash
          let s1 := createSubmission s ⟨userId, challengeId, flag, isCorrect, ip, ua⟩
          if isCorrect then
            let s2 := createSolve s1 userId challengeId
            let s3 := updateUserScore s2 userId ch.points
            (.ok true "Congratulations! Flag accepted." none, s3)
          else
            (.ok false "Incorrect flag. Try again!" none, s1)

/-- The submit route's `catch` block (lines 245-248): every error thrown by a
storage step is answered with the same generic
`500 {message: "Failed to submit flag"}` — no error is reinterpreted as an
already-solved conflict. -/
def submitCatchResponse (_errorMessage : String) : SubmitResult :=
  .serverError "Failed to submit flag"

/-- The submit handler's correct branch with fallible storage writes.  The
source wraps the body in a single try/catch with no database transaction, so
when an `await` throws, every earlier `await`'s write is already committed and
stays committed; the catch merely answers the generic 500.  `subOk`, `solveOk`
and `awardOk` say whether `createSubmission`, `createSolve` and
`updateUserScore` succeed. -/
def submitFlagFallible (verify : String → String → Bool) (s : Store)
    (userId challengeId flag ip ua : String)
    (subOk solveOk awardOk : Bool) : SubmitResult × Store :=
  if flag = "" then (.badRequest "Flag is required", s)
  else
    match getChallenge s challengeId with
    | none => (.notFound "Challenge not found", s)
    | some ch =>
        if !ch.published then (.badRequest "Challenge is not published", s)
        else if hasSolved s userId challengeId then
          (.badRequest "You have already solved this challenge", s)
        else
          let isCorrect := verify flag ch.flagHash
          if !subOk then (submitCatchResponse "createSubmission failed", s)
          else
            let s1 := createSubmission s ⟨userId, challengeId, flag, isCorrect, ip, ua⟩
            if isCorrect then
              if !solveOk then (submitCatchResponse "createSolve failed", s1)
              else
                let s2 := createSolve s1 userId challengeId
                if !awardOk then (submitCatchResponse "updateUserScore failed", s2)
                else
                  let s3 := updateUserScore s2 userId ch.points
                  (.ok true "Congratulations! Flag accepted." none, s3)
            else
              (.ok false "Incorrect flag. Try again!" none, s1)

/-- The route as mounted: `rateLimit` middleware first, then the handler.  A
429 rejection returns before the handler runs, so the store is untouched and
the verifier is never consulted. -/
def submitWithRateLimit (verify : String → String → Bool)
    (entry : Option RateEntry) (now : Nat) (s : Store)
    (userId challengeId flag ip ua : String) :
    SubmitResult × Option RateEntry × Store :=
  match rateLimitStep entry now with
  | (some retry, e) =>
      (.rateLimited "Too many attempts. Please wait before trying again." retry, some e, s)
  | (none, e) =>
      let r := submitFlag verify s userId challengeId flag ip ua
      (r.1, some e, r.2)

/-! ### `POST /api/challenges/:id/hints/:index` (`src/unnamed/part_004`, lines 309-337) -/

/-- The JSON responses of the hint route. -/
inductive HintResult where
  | notFound (message : String)
  | alreadyUsed (message : String)
  | unlocked (text : String) (cost : Int)
deriving DecidableEq, Repr

/-- The hint handler: unknown challenge or hint index → 404; an existing
`HintUsage` row with the same `hintIndex` → 400 "Hint already used"; otherwise
`updateUserScore(userId, -hint.cost)` followed by `useHint(...)`, answering
`{hint: text, cost}`.  The deduction is applied unconditionally — there is no
floor at zero. -/
def useHintRoute (s : Store) (userId challengeId : String) (hintIndex : Nat) :
    HintResult × Store :=
  match getChallenge s challengeId with
  | none => (.notFound "Hint not found", s)
  | some ch =>
      match ch.hints.get? hintIndex with
      | none => (.notFound "Hint not found", s)
      | some h =>
          if (getUserHintUsage s userId challengeId).any (fun u => u.hintIndex == hintIndex) then
            (.alreadyUsed "Hint already used", s)
          else
            let s1 := updateUserScore s userId (-h.cost)
            let s2 := useHint s1 userId challengeId hintIndex h.cost
            (.unlocked h.text h.cost, s2)

/-! ### Challenge CRUD routes and flag-hash sanitization
(`src/unnamed/part_004`, lines 70-193) -/

/-- A challenge as serialized in a route response.  `flagHash`/`flagSalt` are
`Option`s recording whether the JSON body carries those keys: the sanitized
shape produced by `const {flagHash, flagSalt, ...rest} = challenge` omits
them (`none`), while responses that serialize a raw storage row carry them
(`some _`). -/
structure ChallengeView where
  id : String
  title : String
  slug : String
  description : String
  category : String
  difficulty : String
  points : Int
  flagHash : Option String
  flagSalt : Option String
  published : Bool
  creatorId : String
  hints : List Hint
  createdAt : Nat
deriving DecidableEq, Repr

/-- The sanitized projection used by the list and get-by-id routes. -/
def sanitizeView (c : Challenge) : ChallengeView :=
  ⟨c.id, c.title, c.slug, c.description, c.category, c.difficulty, c.points,
    none, none, c.published, c.creatorId, c.hints, c.createdAt⟩

/-- A raw storage row serialized whole, as the create and update routes do. -/
def fullView (c : Challenge) : ChallengeView :=
  ⟨c.id, c.title, c.slug, c.description, c.category, c.difficulty, c.points,
    some c.flagHash, some c.flagSalt, c.published, c.creatorId, c.hints, c.createdAt⟩

/-- The query filters of `GET /api/challenges`. -/
structure ChallengeFilters where
  category : Option String
  difficulty : Option String
  search : Option String
  published : Option Bool
deriving Repr

/-- Whether one challenge row passes `getChallenges`' where-clause: equality
on category/difficulty/published plus a case-insensitive `ILIKE
'%search%'` on title or description. -/
def challengeMatches (f : ChallengeFilters) (c : Challenge) : Bool :=
  (match f.published with | none => true | some p => c.published == p) &&
  (match f.category with | none => true | some x => c.category == x) &&
  (match f.difficulty with | none => true | some x => c.difficulty == x) &&
  (match f.search with
   | none => true
   | some q => decide ((q.data.map Char.toLower) <:+: (c.title.data.map Char.toLower)) ||
       decide ((q.data.map Char.toLower) <:+: (c.description.data.map Char.toLower)))

/-- `createdAt` descending, the `orderBy(desc(challenges.createdAt))` of
`getChallenges`. -/
def createdDescRel : Challenge → Challenge → Prop := fun a b => b.createdAt ≤ a.createdAt

instance : DecidableRel createdDescRel := fun a b => by unfold createdDescRel; infer_instance

instance : IsTotal Challenge createdDescRel := by
  constructor; intro a b; unfold createdDescRel; omega

instance : IsTrans Challenge createdDescRel := by
  constructor; intro a b c; unfold createdDescRel; omega

/-- `GET /api/challenges`: an unauthenticated caller has `published = true`
forced into the filters; every returned row is passed through the
`{flagHash, flagSalt, ...rest}` destructuring before `res.json`. -/
def getChallengesRoute (s : Store) (authenticated : Bool) (f : ChallengeFilters) :
    List ChallengeView :=
  let f' := if authenticated then f else { f with published := some true }
  ((s.challenges.filter (challengeMatches f')).insertionSort createdDescRel).map sanitizeView

/-- `GET /api/challenges/:id`: 404 (`none`) for an unknown id, else the
sanitized challenge plus the caller's `hasSolved` flag (false when the caller
is anonymous). -/
def getChallengeRoute (s : Store) (challengeId : String) (caller : Option String) :
    Option (ChallengeView × Bool) :=
  match getChallenge s challengeId with
  | none => none
  | some ch =>
      some (sanitizeView ch,
        match caller with
        | none => false
        | some uid => hasSolved s uid ch.id)

/-- The validated body of `POST /api/challenges` (after
`insertChallengeSchema.parse`, which strips id/slug/flagHash/flagSalt and
requires a plaintext `flag`). -/
structure NewChallengeData where
  title : String
  description : String
  category : String
  difficulty : String
  points : Int
  published : Bool
  hints : List Hint
deriving Repr

/-- `POST /api/challenges` + `DatabaseStorage.createChallenge`: the stored
row's `creatorId` is forced to the caller's id, the flag is hashed
(`hashPassword`, abstracted as `hashFn`), and — unlike the list/get routes —
the raw stored row is serialized back whole, `flagHash` and `flagSalt`
included.  The generated salt, slug and row id come from randomness and are
passed in as parameters. -/
def createChallengeRoute (hashFn : String → String) (s : Store) (callerId : String)
    (d : NewChallengeData) (flag newId slug salt : String) (now : Nat) :
    ChallengeView × Store :=
  let row : Challenge :=
    ⟨newId, d.title, slug, d.description, d.category, d.difficulty, d.points,
      hashFn flag, salt, d.published, callerId, d.hints, now⟩
  (fullView row, { s with challenges := s.challenges ++ [row] })

/-- The update payload of `PUT /api/challenges/:id`: optional new values per
editable column, the shape the edit page sends. -/
structure ChallengePatch where
  title : Option String
  description : Option String
  category : Option String
  difficulty : Option String
  points : Option Int
  published : Option Bool
  hints : Option (List Hint)
deriving Repr

/-- The `set({...challengeUpdate, updatedAt: new Date()})` of
`DatabaseStorage.updateChallenge`. -/
def applyPatch (c : Challenge) (p : ChallengePatch) : Challenge :=
  { c with
    title := p.title.getD c.title
    description := p.description.getD c.description
    category := p.category.getD c.category
    difficulty := p.difficulty.getD c.difficulty
    points := p.points.getD c.points
    published := p.published.getD c.published
    hints := p.hints.getD c.hints }

/-- The responses of `PUT /api/challenges/:id`. -/
inductive UpdateResult where
  | notFound (message : String)
  | forbidden (message : String)
  | updated (body : ChallengeView)
deriving DecidableEq, Repr

/-- `PUT /api/challenges/:id`: 404 for an unknown id; 403 ("You can only edit
your own challenges") whenever the stored row's `creatorId` differs from the
caller; otherwise the patch is applied and the raw updated row serialized
back whole. -/
def updateChallengeRoute (s : Store) (callerId challengeId : String)
    (p : ChallengePatch) : UpdateResult × Store :=
  match getChallenge s challengeId with
  | none => (.notFound "Challenge not found", s)
  | some ch =>
      if ch.creatorId ≠ callerId then
        (.forbidden "You can only edit your own challenges", s)
      else
        let s' := { s with challenges := s.challenges.map (fun c =>
          if c.id == challengeId then applyPatch c p else c) }
        match getChallenge s' challengeId with
        | none => (.notFound "Challenge not found", s')
        | some ch' => (.updated (fullView ch'), s')

/-- The responses of `DELETE /api/challenges/:id`. -/
inductive DeleteResult where
  | notFound (message : String)
  | forbidden (message : String)
  | deleted
deriving DecidableEq, Repr

/-- `DELETE /api/challenges/:id`: 404, the same ownership guard, then
`delete from challenges where id = …`. -/
def deleteChallengeRoute (s : Store) (callerId challengeId : String) :
    DeleteResult × Store :=
  match getChallenge s challengeId with
  | none => (.notFound "Challenge not found", s)
  | some ch =>
      if ch.creatorId ≠ callerId then
        (.forbidden "You can only delete your own challenges", s)
      else
        (.deleted, { s with challenges := s.challenges.filter (fun c => c.id != challengeId) })

/-! ### Two concurrent submit requests

Each Express handler is an async function whose `await`ed storage calls are
atomic, but between two of one handler's `await`s the Node event loop may run
another handler.  The model below splits a correct-flag submit request for
(userId, challengeId) into its read phase (the `hasSolved` precondition
check) and its write phase (the audit insert, the solve insert and the score
award), and lets two such requests interleave at that boundary.  Any
behaviour of this coarse model is a behaviour of the real event loop, since
the write phase of one request can run uninterrupted there too. -/

/-- The progress of one in-flight correct-flag submit request. -/
inductive ReqPhase where
  | start
  | checked (sawSolved : Bool)
  | done (result : SubmitResult)
deriving DecidableEq, Repr

/-- One scheduler step of an in-flight request (flag already judged correct by
the verifier; `points` is the challenge's point value).  From `start` it
performs the `hasSolved` read; from `checked` it either answers the
already-solved 400 or commits all three writes. -/
def reqStep (s : Store) (ph : ReqPhase) (userId challengeId flag ip ua : String)
    (points : Int) : Store × ReqPhase :=
  match ph with
  | .start => (s, .checked (hasSolved s userId challengeId))
  | .checked true => (s, .done (.badRequest "You have already solved this challenge"))
  | .checked false =>
      let s1 := createSubmission s ⟨userId, challengeId, flag, true, ip, ua⟩
      let s2 := createSolve s1 userId challengeId
      let s3 := updateUserScore s2 userId points
      (s3, .done (.ok true "Congratulations! Flag accepted." none))
  | .done r => (s, .done r)

/-- Run two concurrent submit requests A and B for the same
(userId, challengeId) under a schedule: `false` steps request A, `true`
steps request B. -/
def runSchedule (userId challengeId flag ip ua : String) (points : Int) :
    List Bool → Store → ReqPhase → ReqPhase → Store × ReqPhase × ReqPhase
  | [], s, a, b => (s, a, b)
  | c :: rest, s, a, b =>
      if c then
        let r := reqStep s b userId challengeId flag ip ua points
        runSchedule userId challengeId flag ip ua points rest r.1 a r.2
      else
        let r := reqStep s a userId challengeId flag ip ua points
        runSchedule userId challengeId flag ip ua points rest r.1 r.2 b

/-- The core invariant claimed of the solve ledger: no two rows of `solves`
share the (userId, challengeId) pair. -/
def SolveInvariant (s : Store) : Prop :=
  s.solves.Pairwise (fun a b => ¬(a.userId = b.userId ∧ a.challengeId = b.challengeId))

instance (s : Store) : Decidable (SolveInvariant s) := by
  unfold SolveInvariant; infer_instance

/-- The empty database. -/
def emptyStore : Store := ⟨[], [], [], [], []⟩

/-- The `pointsAwarded` key of a submit-route JSON response (present only on
an `ok` body, and the source never writes it). -/
def pointsAwardedOf : SubmitResult → Option Int
  | .ok _ _ p => p
  | _ => none

/-- The (score desc, solveCount desc) comparison lifted to returned
leaderboard entries, for stating what order `getLeaderboard` guarantees. -/
def entryRel : LBEntry → LBEntry → Prop := fun e f =>
  f.score < e.score ∨ (e.score = f.score ∧ f.solveCount ≤ e.solveCount)

/-! ### Concrete fixtures used by witnesses and counterexamples -/

/-- A stand-in for `comparePasswords`: judge an attempt correct exactly when
it equals the stored hash (any boolean verifier works for the theorems, which
quantify over `verify`). -/
def eqVerify : String → String → Bool := fun a b => a == b

/-- A fresh user with score 0. -/
def exampleUser : User := ⟨"u1", "alice", "a@x", "pw", 0, false, 1⟩

/-- A published 100-point challenge with one 10-point hint; `eqVerify`
accepts exactly the flag "H". -/
def exampleChallenge : Challenge :=
  ⟨"c1", "Crypto 1", "crypto-1-ab", "desc", "crypto", "easy", 100, "H", "salt",
    true, "creator", [⟨"hint one", 10⟩], 1⟩

/-- One user, one published challenge, nothing else. -/
def exampleStore : Store := ⟨[exampleUser], [exampleChallenge], [], [], []⟩

/-- A user with score 5, for the hint-below-zero scenario. -/
def hintUser : User := ⟨"u5", "bob", "b@x", "pw", 5, false, 2⟩

/-- `hintUser` plus the 10-point-hint challenge. -/
def hintStore : Store := ⟨[hintUser], [exampleChallenge], [], [], []⟩

/-- An admin with score 100 above two players with scores 50 and 10. -/
def rankStore : Store :=
  ⟨[⟨"a", "admin", "e", "p", 100, true, 1⟩,
    ⟨"p", "player", "e", "p", 50, false, 2⟩,
    ⟨"q", "quiet", "e", "p", 10, false, 3⟩], [], [], [], []⟩

/-- Two users tied on score (and on solve count 0), the later-registered one
first in table order. -/
def tieStore : Store :=
  ⟨[⟨"late", "late", "e", "p", 50, false, 5⟩,
    ⟨"early", "early", "e", "p", 50, false, 1⟩], [], [], [], []⟩

/-- A store already holding a Solve for ("u1", "c1"). -/
def dupSolveStore : Store := ⟨[], [], [], [⟨"u1", "c1"⟩], []⟩

/-- An update payload that changes nothing. -/
def emptyPatch : ChallengePatch := ⟨none, none, none, none, none, none, none⟩

/-! ## Helper lemmas -/

@[simp] theorem solves_updateUserScore (s : Store) (uid : String) (d : Int) :
    (updateUserScore s uid d).solves = s.solves := rfl

@[simp] theorem solves_createSubmission (s : Store) (row : Submission) :
    (createSubmission s row).solves = s.solves := rfl

@[simp] theorem solves_useHint (s : Store) (uid cid : String) (i : Nat) (c : Int) :
    (useHint s uid cid i c).solves = s.solves := rfl

@[simp] theorem solves_createSolve (s : Store) (uid cid : String) :
    (createSolve s uid cid).solves = s.solves ++ [⟨uid, cid⟩] := rfl

@[simp] theorem users_createSubmission (s : Store) (row : Submission) :
    (createSubmission s row).users = s.users := rfl

@[simp] theorem users_createSolve (s : Store) (uid cid : String) :
    (createSolve s uid cid).users = s.users := rfl

@[simp] theorem users_useHint (s : Store) (uid cid : String) (i : Nat) (c : Int) :
    (useHint s uid cid i c).users = s.users := rfl

@[simp] theorem challenges_updateUserScore (s : Store) (uid : String) (d : Int) :
    (updateUserScore s uid d).challenges = s.challenges := rfl

@[simp] theorem challenges_createSubmission (s : Store) (row : Submission) :
    (createSubmission s row).challenges = s.challenges := rfl

@[simp] theorem challenges_createSolve (s : Store) (uid cid : String) :
    (createSolve s uid cid).challenges = s.challenges := rfl

@[simp] theorem hintUsages_updateUserScore (s : Store) (uid : String) (d : Int) :
    (updateUserScore s uid d).hintUsages = s.hintUsages := rfl

@[simp] theorem hintUsages_useHint (s : Store) (uid cid : String) (i : Nat) (c : Int) :
    (useHint s uid cid i c).hintUsages = s.hintUsages ++ [⟨uid, cid, i, c⟩] := rfl

/-- `updateUserScore` leaves a user row's id in place and adds `d` to the
first row found under `uid`: the list-level core of the score update. -/
theorem find_update_score (l : List User) (uid : String) (d : Int) (u : User)
    (h : l.find? (fun v => v.id == uid) = some u) :
    (l.map (fun v => if v.id == uid then { v with score := v.score + d } else v)).find?
      (fun v => v.id == uid) = some { u with score := u.score + d } := by
  induction l with
  | nil => simp at h
  | cons a l ih =>
      by_cases hc : (a.id == uid) = true
      · simp only [List.find?_cons, hc] at h
        injection h with h
        subst h
        have he : a.id = uid := by simpa using hc
        simp [List.find?_cons, he]
      · have hc' : (a.id == uid) = false := by
          cases hcc : (a.id == uid) with
          | true => exact absurd hcc hc
          | false => rfl
        simp only [List.find?_cons, hc'] at h
        simp only [List.map_cons, List.find?_cons]
        rw [if_neg hc]
        simp only [hc']
        exact ih h

/-- The score after one `updateUserScore` is the old score plus the delta. -/
theorem scoreOf_updateUserScore (s : Store) (uid : String) (d sc : Int)
    (h : scoreOf s uid = some sc) :
    scoreOf (updateUserScore s uid d) uid = some (sc + d) := by
  unfold scoreOf getUser at h
  unfold scoreOf getUser updateUserScore
  cases hf : s.users.find? (fun v => v.id == uid) with
  | none => rw [hf] at h; simp at h
  | some u =>
      rw [hf] at h
      simp at h
      show (((s.users.map fun v => if v.id == uid then { v with score := v.score + d } else v).find?
        (fun v => v.id == uid)).map fun v => v.score) = some (sc + d)
      rw [find_update_score _ _ d _ hf]
      simp [h]

/-- Appending a Solve for a pair that `hasSolved` reports absent preserves
pairwise distinctness of (userId, challengeId). -/
theorem solveInvariant_append (s : Store) (uid cid : String)
    (hinv : SolveInvariant s) (hns : hasSolved s uid cid = false) :
    List.Pairwise (fun a b : Solve => ¬(a.userId = b.userId ∧ a.challengeId = b.challengeId))
      (s.solves ++ [(⟨uid, cid⟩ : Solve)]) := by
  rw [List.pairwise_append]
  refine ⟨hinv, by simp, ?_⟩
  intro a ha b hb
  simp only [List.mem_singleton] at hb
  subst hb
  unfold hasSolved at hns
  rw [List.any_eq_false] at hns
  have := hns a ha
  simp only [Bool.and_eq_true, beq_iff_eq] at this
  intro hcontra
  exact this ⟨hcontra.1, hcontra.2⟩

/-- With its three storage writes succeeding, the fallible submit handler
coincides with `submitFlag`. -/
theorem submitFlagFallible_all_ok (verify : String → String → Bool) (s : Store)
    (userId challengeId flag ip ua : String) :
    submitFlagFallible verify s userId challengeId flag ip ua true true true =
      submitFlag verify s userId challengeId flag ip ua := by
  unfold submitFlagFallible submitFlag
  split
  · rfl
  · split
    · rfl
    · split
      · rfl
      · split
        · rfl
        · simp

/-- Requests arriving inside the current window while the count is below the
limit are all admitted, incrementing the count once each. -/
theorem runWindow_fill (R : Nat) :
    ∀ (ts : List Nat) (c : Nat), (∀ x ∈ ts, x ≤ R) → c + ts.length ≤ maxAttempts →
    runWindow (some ⟨c, R⟩) ts = (true, some ⟨c + ts.length, R⟩) := by
  intro ts
  induction ts with
  | nil => intro c _ _; simp [runWindow]
  | cons t ts ih =>
      intro c hle hcnt
      have ht : t ≤ R := hle t (by simp)
      have hlen : (t :: ts).length = ts.length + 1 := by simp
      rw [hlen] at hcnt
      have h1 : ¬ R < t := by omega
      have h2 : ¬ maxAttempts ≤ c := by omega
      have hstep : rateLimitStep (some ⟨c, R⟩) t = (none, ⟨c + 1, R⟩) := by
        simp [rateLimitStep, h1, h2]
      have hrec := ih (c + 1) (fun x hx => hle x (by simp [hx])) (by omega)
      unfold runWindow
      rw [hstep]
      dsimp only
      rw [hrec, hlen]
      have harith : c + 1 + ts.length = c + (ts.length + 1) := by omega
      rw [harith]

/-- The rank fields produced by `assignRanks` are the consecutive ordinals
starting at its counter. -/
theorem assignRanks_map_rank : ∀ (k : Nat) (l : List (User × Nat)),
    (assignRanks k l).map (fun e => e.rank) = List.range' k l.length := by
  intro k l
  induction l generalizing k with
  | nil => simp [assignRanks]
  | cons x l ih =>
      obtain ⟨u, sc⟩ := x
      simp only [assignRanks, List.map_cons, List.length_cons, List.range'_succ]
      rw [ih (k + 1)]

/-- Every entry produced by `assignRanks` carries the score, solve count and
admin flag of some input row. -/
theorem assignRanks_mem : ∀ (k : Nat) (l : List (User × Nat)) (e : LBEntry),
    e ∈ assignRanks k l →
    ∃ x, x ∈ l ∧ e.score = x.1.score ∧ e.solveCount = x.2 ∧ e.isAdmin = x.1.isAdmin := by
  intro k l
  induction l generalizing k with
  | nil => intro e h; simp [assignRanks] at h
  | cons x l ih =>
      intro e h
      obtain ⟨u, sc⟩ := x
      simp only [assignRanks, List.mem_cons] at h
      rcases h with h | h
      · subst h
        exact ⟨(u, sc), by simp⟩
      · obtain ⟨y, hy, hprops⟩ := ih (k + 1) e h
        exact ⟨y, by simp [hy], hprops⟩

/-- `assignRanks` transports sortedness from the (score, solveCount) order on
rows to `entryRel` on entries. -/
theorem assignRanks_pairwise : ∀ (k : Nat) (l : List (User × Nat)),
    l.Pairwise lbRel → (assignRanks k l).Pairwise entryRel := by
  intro k l
  induction l generalizing k with
  | nil => intro _; simp [assignRanks]
  | cons x l ih =>
      intro hp
      rw [List.pairwise_cons] at hp
      obtain ⟨hx, hl⟩ := hp
      obtain ⟨u, sc⟩ := x
      refine List.Pairwise.cons ?_ (ih (k + 1) hl)
      intro e he
      obtain ⟨y, hy, hs, hc, _⟩ := assignRanks_mem (k + 1) l e he
      have hrel := hx y hy
      unfold lbRel at hrel
      dsimp only at hrel
      unfold entryRel
      dsimp only
      rw [hs, hc]
      omega

/-- `getLeaderboard` output entries all come from the non-admin row set. -/
theorem getLeaderboard_mem (s : Store) (limit : Nat) (e : LBEntry)
    (h : e ∈ getLeaderboard s limit) :
    ∃ u, u ∈ s.users ∧ u.isAdmin = false ∧ e.isAdmin = u.isAdmin ∧ e.score = u.score := by
  unfold getLeaderboard at h
  obtain ⟨x, hx, hs, _, ha⟩ := assignRanks_mem _ _ _ h
  have hx1 : x ∈ (leaderboardRows s).insertionSort lbRel := List.mem_of_mem_take hx
  have hx2 : x ∈ leaderboardRows s := (List.perm_insertionSort lbRel _).mem_iff.mp hx1
  unfold leaderboardRows at hx2
  rw [List.mem_map] at hx2
  obtain ⟨u, hu, hmk⟩ := hx2
  rw [List.mem_filter] at hu
  refine ⟨u, hu.1, ?_, ?_, ?_⟩
  · simpa using hu.2
  · rw [ha, ← hmk]
  · rw [hs, ← hmk]

@[simp] theorem scoreOf_createSubmission (s : Store) (row : Submission) (t : String) :
    scoreOf (createSubmission s row) t = scoreOf s t := rfl

@[simp] theorem scomp_createSolve (s : Store) (uid cid t : String) :
    scoreOf (createSolve s uid cid) t = scoreOf s t := rfl

@[simp] theorem scoreOf_useHint (s : Store) (uid cid : String) (i : Nat) (c : Int) (t : String) :
    scoreOf (useHint s uid cid i c) t = scoreOf s t := rfl

@[simp] theorem getChallenge_createSubmission (s : Store) (row : Submission) (cid : String) :
    getChallenge (createSubmission s row) cid = getChallenge s cid := rfl

@[simp] theorem getChallenge_createSolve (s : Store) (uid cid q : String) :
    getChallenge (createSolve s uid cid) q = getChallenge s q := rfl

@[simp] theorem getChallenge_updateUserScore (s : Store) (uid : String) (d : Int) (q : String) :
    getChallenge (updateUserScore s uid d) q = getChallenge s q := rfl

/-- `assignRanks` is length preserving. -/
theorem assignRanks_length : ∀ (k : Nat) (l : List (User × Nat)),
    (assignRanks k l).length = l.length := by
  intro k l
  induction l generalizing k with
  | nil => rfl
  | cons x l ih =>
      obtain ⟨u, sc⟩ := x
      simp [assignRanks, ih (k + 1)]

/-- The solve invariant only reads the `solves` table. -/
theorem solveInvariant_of_eq_solves {s t : Store} (h : t.solves = s.solves)
    (hinv : SolveInvariant s) : SolveInvariant t := by
  unfold SolveInvariant at hinv ⊢
  rw [h]
  exact hinv

/-- The hint route never touches the `solves` table. -/
theorem useHintRoute_solves (s : Store) (uid cid : String) (idx : Nat) :
    (useHintRoute s uid cid idx).2.solves = s.solves := by
  unfold useHintRoute
  split
  · rfl
  · split
    · rfl
    · split
      · rfl
      · simp

/-- The challenge-update route never touches the `solves` table. -/
theorem updateChallengeRoute_solves (s : Store) (uid cid : String) (p : ChallengePatch) :
    (updateChallengeRoute s uid cid p).2.solves = s.solves := by
  unfold updateChallengeRoute
  split
  · rfl
  · split
    · rfl
    · dsimp only
      split
      · rfl
      · rfl

/-- The challenge-delete route never touches the `solves` table. -/
theorem deleteChallengeRoute_solves (s : Store) (uid cid : String) :
    (deleteChallengeRoute s uid cid).2.solves = s.solves := by
  unfold deleteChallengeRoute
  split
  · rfl
  · split
    · rfl
    · rfl

/-! ## Claim theorems -/

/-- C1, counterexample: the solve-uniqueness invariant is not concurrency
proof.  Starting from a healthy store, two concurrent correct submissions for
("u1", "c1") that interleave as check/check/commit/commit both pass the
`hasSolved` precondition, so — the `solves` table having no unique constraint
on the pair — two Solve rows are inserted, the 100-point award is applied
twice (score 200), and both requests answer `solved`, not `alreadySolved`. -/
theorem two_interleaved_submissions_break_solve_uniqueness :
    SolveInvariant exampleStore ∧
    (let r := runSchedule "u1" "c1" "H" "" "" 100 [false, true, false, true]
        exampleStore .start .start
     r.1.solves = [⟨"u1", "c1"⟩, ⟨"u1", "c1"⟩] ∧
     ¬ SolveInvariant r.1 ∧
     scoreOf r.1 "u1" = some 200 ∧
     r.2.1 = .done (.ok true "Congratulations! Flag accepted." none) ∧
     r.2.2 = .done (.ok true "Congratulations! Flag accepted." none)) := by decide

/-- C2: the Solve-insert plus score-award pair is NOT transactional.  When
`createSolve` commits and the following `updateUserScore` fails, the handler
answers the generic 500 and the store is left half-applied: the Solve row for
("u1", "c1") exists while the submitter's score is unchanged at 0 (the
challenge being worth 100). -/
theorem solve_committed_without_award :
    (submitFlagFallible eqVerify exampleStore "u1" "c1" "H" "" "" true true false).1
        = .serverError "Failed to submit flag" ∧
    hasSolved (submitFlagFallible eqVerify exampleStore "u1" "c1" "H" "" "" true true false).2
        "u1" "c1" = true ∧
    scoreOf (submitFlagFallible eqVerify exampleStore "u1" "c1" "H" "" "" true true false).2
        "u1" = some 0 ∧
    scoreOf exampleStore "u1" = some 0 ∧
    exampleChallenge.points = 100 := by decide

/-- C3: `updateUserScore` is a relative `score += delta` adjustment, and any
sequence of awards and deductions lands on the initial score plus the sum of
the deltas. -/
theorem score_is_sum_of_deltas : ∀ (ds : List Int) (s : Store) (uid : String) (sc : Int),
    scoreOf s uid = some sc →
    scoreOf (applyDeltas s uid ds) uid = some (sc + ds.sum) := by
  intro ds
  induction ds with
  | nil => intro s uid sc h; simpa [applyDeltas] using h
  | cons d ds ih =>
      intro s uid sc h
      have h1 := scoreOf_updateUserScore s uid d sc h
      have h2 := ih (updateUserScore s uid d) uid (sc + d) h1
      unfold applyDeltas at h2 ⊢
      rw [List.foldl_cons, h2]
      congr 1
      rw [List.sum_cons]
      ring

/-- Witness for C3 at a concrete run: score 0, deltas 100, −30, 7. -/
theorem score_is_sum_of_deltas_witness :
    scoreOf exampleStore "u1" = some 0 ∧
    scoreOf (applyDeltas exampleStore "u1" [100, -30, 7]) "u1"
      = some (0 + ([100, -30, 7] : List Int).sum) :=
  ⟨by decide, score_is_sum_of_deltas [100, -30, 7] exampleStore "u1" 0 (by decide)⟩

/-- C4: no store conflict is ever reinterpreted as an `alreadySolved`
business outcome.  The submit route's catch block answers every storage
error — a duplicate-key violation included — with the generic 500; the
schema declares no unique constraint on (user_id, challenge_id) of `solves`
nor on the `hint_usage` triple, so a racing duplicate insert simply succeeds
(second row appended) instead of raising the conflict the spec relies on. -/
theorem store_conflict_not_reinterpreted :
    submitCatchResponse "duplicate key value violates unique constraint"
        = .serverError "Failed to submit flag" ∧
    submitCatchResponse "duplicate key value violates unique constraint"
        ≠ .badRequest "You have already solved this challenge" ∧
    ["user_id", "challenge_id"] ∉ solvesUniqueConstraints ∧
    ["user_id", "challenge_id", "hint_index"] ∉ hintUsageUniqueConstraints ∧
    (createSolve dupSolveStore "u1" "c1").solves = [⟨"u1", "c1"⟩, ⟨"u1", "c1"⟩] := by decide

/-- C6, counterexample: the first correct submission does increase the score
by the challenge's 100 points, but its JSON body is
`{correct: true, message: …}` with NO `pointsAwarded` key, contradicting the
claimed `pointsAwarded = v` in the response. -/
theorem correct_submission_response_has_no_pointsAwarded :
    (submitFlag eqVerify exampleStore "u1" "c1" "H" "" "").1
        = .ok true "Congratulations! Flag accepted." none ∧
    pointsAwardedOf (submitFlag eqVerify exampleStore "u1" "c1" "H" "" "").1 = none ∧
    pointsAwardedOf (submitFlag eqVerify exampleStore "u1" "c1" "H" "" "").1
        ≠ some exampleChallenge.points ∧
    scoreOf (submitFlag eqVerify exampleStore "u1" "c1" "H" "" "").2 "u1" = some 100 := by decide

/-- C7, counterexample: two users tied on score 50 and solve count 0, the
later-registered one (createdAt 5) ahead of the earlier one (createdAt 1) in
table order, come back in that same order — the query sorts only by (score
desc, solveCount desc) and applies no account-creation-time tie-break. -/
theorem leaderboard_ties_not_ordered_by_createdAt :
    getLeaderboard tieStore 50 =
      [⟨"late", "late", 50, false, 5, 1, 0⟩, ⟨"early", "early", 50, false, 1, 2, 0⟩] ∧
    (getLeaderboard tieStore 50).map (fun e => e.createdAt) = [5, 1] ∧
    ¬ (5 : Nat) ≤ 1 := by decide

/-- C8, counterexample: with an admin at score 100 above players "p" (50) and
"q" (10), the leaderboard ranks "p" first among the admin-excluded
population — but `getUserRank "p"` returns 2, because its count of
strictly-greater scores ranges over ALL users, the admin included. -/
theorem getUserRank_counts_admins :
    getUserRank rankStore "p" = 2 ∧
    ((leaderboardRows rankStore).filter (fun x => (50 : Int) < x.1.score)).length + 1 = 1 ∧
    getLeaderboard rankStore 50 =
      [⟨"p", "player", 50, false, 2, 1, 0⟩, ⟨"q", "quiet", 10, false, 3, 2, 0⟩] := by decide

/-- C1, amended: the no-duplicate-Solve invariant holds of the empty store
and is preserved by every SEQUENTIALLY executed operation of the public
interface — flag submission (whose `hasSolved` precondition guards the
insert), hint use, and challenge create/update/delete, none of which insert
solves unguarded. -/
theorem solve_uniqueness_sequentially_preserved :
    SolveInvariant emptyStore ∧
    (∀ (verify : String → String → Bool) (s : Store) (uid cid flag ip ua : String),
       SolveInvariant s → SolveInvariant (submitFlag verify s uid cid flag ip ua).2) ∧
    (∀ (s : Store) (uid cid : String) (idx : Nat),
       SolveInvariant s → SolveInvariant (useHintRoute s uid cid idx).2) ∧
    (∀ (hashFn : String → String) (s : Store) (uid : String) (d : NewChallengeData)
       (flag nid slug salt : String) (now : Nat),
       SolveInvariant s →
       SolveInvariant (createChallengeRoute hashFn s uid d flag nid slug salt now).2) ∧
    (∀ (s : Store) (uid cid : String) (p : ChallengePatch),
       SolveInvariant s → SolveInvariant (updateChallengeRoute s uid cid p).2) ∧
    (∀ (s : Store) (uid cid : String),
       SolveInvariant s → SolveInvariant (deleteChallengeRoute s uid cid).2) := by
  refine ⟨by decide, ?_, ?_, ?_, ?_, ?_⟩
  · intro verify s uid cid flag ip ua hinv
    unfold submitFlag
    split
    · exact hinv
    · split
      · exact hinv
      · split
        · exact hinv
        · split
          · exact hinv
          · rename_i hns
            dsimp only
            split
            · unfold SolveInvariant
              simp only [solves_updateUserScore, solves_createSolve, solves_createSubmission]
              have hns' : hasSolved s uid cid = false := by
                cases hh : hasSolved s uid cid
                · rfl
                · exact absurd hh hns
              exact solveInvariant_append s uid cid hinv hns'
            · exact hinv
  · intro s uid cid idx hinv
    exact solveInvariant_of_eq_solves (useHintRoute_solves s uid cid idx) hinv
  · intro hashFn s uid d flag nid slug salt now hinv
    exact solveInvariant_of_eq_solves rfl hinv
  · intro s uid cid p hinv
    exact solveInvariant_of_eq_solves (updateChallengeRoute_solves s uid cid p) hinv
  · intro s uid cid hinv
    exact solveInvariant_of_eq_solves (deleteChallengeRoute_solves s uid cid) hinv

/-- Witness for C1's amended preservation at a concrete sequential call. -/
theorem solve_uniqueness_sequentially_preserved_witness :
    SolveInvariant (submitFlag eqVerify exampleStore "u1" "c1" "H" "" "").2 :=
  solve_uniqueness_sequentially_preserved.2.1 eqVerify exampleStore "u1" "c1" "H" "" ""
    (by decide)

/-- C7, amended: `getLeaderboard` returns entries sorted by score descending
then solve-count descending (no further tie-break), with ranks assigned as
the contiguous 1-based ordinal positions. -/
theorem leaderboard_sorted_and_contiguously_ranked (s : Store) (limit : Nat) :
    (getLeaderboard s limit).Pairwise entryRel ∧
    (getLeaderboard s limit).map (fun e => e.rank)
      = List.range' 1 (getLeaderboard s limit).length := by
  constructor
  · unfold getLeaderboard
    exact assignRanks_pairwise 1 _
      ((List.sorted_insertionSort lbRel (leaderboardRows s)).sublist
        (List.take_sublist limit _))
  · unfold getLeaderboard
    rw [assignRanks_map_rank, assignRanks_length]

/-- C8, amended: `getLeaderboard` filters admin principals out entirely,
while `getUserRank` is one plus the count of strictly-greater scores over ALL
user rows — admins included — so the two rankings are computed over different
populations. -/
theorem leaderboard_excludes_admins_but_rank_does_not :
    (∀ (s : Store) (limit : Nat) (e : LBEntry),
       e ∈ getLeaderboard s limit → e.isAdmin = false) ∧
    (∀ (s : Store) (uid : String) (u : User), getUser s uid = some u →
       getUserRank s uid = (s.users.filter (fun v => u.score < v.score)).length + 1) := by
  constructor
  · intro s limit e he
    obtain ⟨u, _, hadm, hieq, _⟩ := getLeaderboard_mem s limit e he
    rw [hieq, hadm]
  · intro s uid u hu
    unfold getUserRank
    rw [hu]

/-- Witness for C8's amended theorem on the admin/player/quiet store. -/
theorem leaderboard_excludes_admins_but_rank_does_not_witness :
    (⟨"p", "player", 50, false, 2, 1, 0⟩ : LBEntry).isAdmin = false ∧
    getUserRank rankStore "p"
      = (rankStore.users.filter
          (fun v => (⟨"p", "player", "e", "p", 50, false, 2⟩ : User).score < v.score)).length + 1 :=
  ⟨leaderboard_excludes_admins_but_rank_does_not.1 rankStore 50
      ⟨"p", "player", 50, false, 2, 1, 0⟩ (by decide),
    leaderboard_excludes_admins_but_rank_does_not.2 rankStore "p"
      ⟨"p", "player", "e", "p", 50, false, 2⟩ (by decide)⟩

/-- C9: with the challenge and hint present and no prior usage of that hint
index by the caller, `useHint` unlocks the hint, records exactly one
HintUsage row carrying the cost, and deducts the cost from the score
unconditionally — with no floor at zero. -/
theorem useHint_deducts_below_zero (s : Store) (u : User) (ch : Challenge)
    (idx : Nat) (h : Hint)
    (hu : getUser s u.id = some u)
    (hch : getChallenge s ch.id = some ch)
    (hh : ch.hints.get? idx = some h)
    (hprev : (getUserHintUsage s u.id ch.id).any (fun x => x.hintIndex == idx) = false) :
    (useHintRoute s u.id ch.id idx).1 = .unlocked h.text h.cost ∧
    (useHintRoute s u.id ch.id idx).2.hintUsages
        = s.hintUsages ++ [⟨u.id, ch.id, idx, h.cost⟩] ∧
    scoreOf (useHintRoute s u.id ch.id idx).2 u.id = some (u.score - h.cost) := by
  have hsc : scoreOf s u.id = some u.score := by
    unfold scoreOf
    rw [hu]
    rfl
  have hroute : useHintRoute s u.id ch.id idx =
      (.unlocked h.text h.cost,
        useHint (updateUserScore s u.id (-h.cost)) u.id ch.id idx h.cost) := by
    unfold useHintRoute
    simp only [hch, hh, hprev, Bool.false_eq_true, if_false]
  rw [hroute]
  refine ⟨rfl, by simp, ?_⟩
  simp only [scoreOf_useHint]
  rw [scoreOf_updateUserScore s u.id (-h.cost) u.score hsc]
  congr 1

/-- Witness for C9: score 5, hint cost 10, resulting score −5. -/
theorem useHint_deducts_below_zero_witness :
    scoreOf (useHintRoute hintStore "u5" "c1" 0).2 "u5" = some (-5) := by
  have h := useHint_deducts_below_zero hintStore hintUser exampleChallenge 0
    ⟨"hint one", 10⟩ (by decide) (by decide) (by decide) (by decide)
  have h5 : hintUser.score - (10 : Int) = -5 := by decide
  rw [← h5]
  exact h.2.2

/-- C10: the flag hash and salt never reach a non-owning caller through the
challenge routes: the list and get-by-id responses omit both keys for every
caller; the create response — which does serialize them — is only ever a
challenge whose `creatorId` is the caller; and a non-owner calling update
receives the 403 body with no challenge data and an unchanged store. -/
theorem flag_secrets_not_exposed_to_nonowners :
    (∀ (s : Store) (authed : Bool) (f : ChallengeFilters) (v : ChallengeView),
       v ∈ getChallengesRoute s authed f → v.flagHash = none ∧ v.flagSalt = none) ∧
    (∀ (s : Store) (cid : String) (caller : Option String) (v : ChallengeView) (b : Bool),
       getChallengeRoute s cid caller = some (v, b) → v.flagHash = none ∧ v.flagSalt = none) ∧
    (∀ (hashFn : String → String) (s : Store) (uid : String) (d : NewChallengeData)
       (flag nid slug salt : String) (now : Nat),
       ((createChallengeRoute hashFn s uid d flag nid slug salt now).1).creatorId = uid) ∧
    (∀ (s : Store) (uid cid : String) (p : ChallengePatch) (ch : Challenge),
       getChallenge s cid = some ch → ch.creatorId ≠ uid →
       updateChallengeRoute s uid cid p
         = (.forbidden "You can only edit your own challenges", s)) := by
  refine ⟨?_, ?_, ?_, ?_⟩
  · intro s authed f v hv
    unfold getChallengesRoute at hv
    rw [List.mem_map] at hv
    obtain ⟨c, _, hc⟩ := hv
    rw [← hc]
    exact ⟨rfl, rfl⟩
  · intro s cid caller v b hres
    unfold getChallengeRoute at hres
    cases hch : getChallenge s cid with
    | none => rw [hch] at hres; cases hres
    | some ch =>
        rw [hch] at hres
        simp only [Option.some.injEq, Prod.mk.injEq] at hres
        rw [← hres.1]
        exact ⟨rfl, rfl⟩
  · intro hashFn s uid d flag nid slug salt now
    rfl
  · intro s uid cid p ch hch hne
    unfold updateChallengeRoute
    simp only [hch]
    rw [if_pos hne]

/-- Witness for C10: a non-owner's update attempt on "c1" yields the 403
with the store untouched. -/
theorem flag_secrets_not_exposed_to_nonowners_witness :
    updateChallengeRoute exampleStore "intruder" "c1" emptyPatch
      = (.forbidden "You can only edit your own challenges", exampleStore) :=
  flag_secrets_not_exposed_to_nonowners.2.2.2 exampleStore "intruder" "c1" emptyPatch
    exampleChallenge (by decide) (by decide)

/-- C5: for one rate-limit key (a (principal, challenge) pair on the submit
route), 10 requests inside the window are all admitted and fill the counter;
an 11th request still inside the window is rejected with a retry-after of at
most 60 seconds and the counter untouched; the first request after the window
elapses is admitted again; and a rejected request is answered 429 with the
store unchanged, never reaching the flag verifier (the response is the same
whatever `verify` is). -/
theorem rate_limit_window (t t11 tAfter : Nat) (ts : List Nat)
    (hlen : ts.length = 9)
    (hts : ∀ x ∈ ts, x ≤ t + windowMs)
    (h11a : t ≤ t11) (h11b : t11 ≤ t + windowMs)
    (hAfter : t + windowMs < tAfter) :
    runWindow none (t :: ts) = (true, some ⟨10, t + windowMs⟩) ∧
    rateLimitStep (some ⟨10, t + windowMs⟩) t11
      = (some ((t + windowMs - t11 + 999) / 1000), ⟨10, t + windowMs⟩) ∧
    (t + windowMs - t11 + 999) / 1000 ≤ 60 ∧
    (rateLimitStep (some ⟨10, t + windowMs⟩) tAfter).1 = none ∧
    (∀ (verify : String → String → Bool) (s : Store) (uid cid flag ip ua : String),
       submitWithRateLimit verify (some ⟨10, t + windowMs⟩) t11 s uid cid flag ip ua
         = (.rateLimited "Too many attempts. Please wait before trying again."
              ((t + windowMs - t11 + 999) / 1000),
            some ⟨10, t + windowMs⟩, s)) := by
  have hreject : rateLimitStep (some ⟨10, t + windowMs⟩) t11
      = (some ((t + windowMs - t11 + 999) / 1000), ⟨10, t + windowMs⟩) := by
    unfold rateLimitStep
    have h1 : ¬ t + windowMs < t11 := by omega
    have h2 : maxAttempts ≤ 10 := by decide
    simp [h1, h2]
  refine ⟨?_, hreject, ?_, ?_, ?_⟩
  · unfold runWindow
    have hstep : rateLimitStep none t = (none, ⟨1, t + windowMs⟩) := rfl
    rw [hstep]
    dsimp only
    rw [runWindow_fill (t + windowMs) ts 1 hts (by rw [hlen]; decide)]
    rw [hlen]
  · have hwin : windowMs = 60000 := rfl
    rw [hwin]
    omega
  · unfold rateLimitStep
    simp [hAfter]
  · intro verify s uid cid flag ip ua
    unfold submitWithRateLimit
    rw [hreject]

/-- Witness for C5 at t = 0: ten requests at time 0, the 11th at 5 s. -/
theorem rate_limit_window_witness :
    runWindow none (0 :: [0, 0, 0, 0, 0, 0, 0, 0, 0]) = (true, some ⟨10, 0 + windowMs⟩) ∧
    (0 + windowMs - 5000 + 999) / 1000 ≤ 60 :=
  have h := rate_limit_window 0 5000 60001 [0, 0, 0, 0, 0, 0, 0, 0, 0]
    (by decide) (by decide) (by decide) (by decide) (by decide)
  ⟨h.1, h.2.2.1⟩

/-- C6, amended: the submit flow matches the claimed scenario except for the
response payload of a win: while unpublished every submission is rejected
with "Challenge is not published"; once published, a wrong flag answers
`{correct: false}` leaving the score unchanged; the first correct flag
answers `{correct: true}` WITHOUT any `pointsAwarded` key while the score
increases by exactly the challenge's point value; resubmitting afterwards
answers the already-solved rejection with the store unchanged. -/
theorem submit_flow_scenario (verify : String → String → Bool) (s : Store)
    (u : User) (ch : Challenge) (wrongFlag rightFlag ip ua : String)
    (hu : getUser s u.id = some u)
    (hch : getChallenge s ch.id = some ch)
    (hw : verify wrongFlag ch.flagHash = false)
    (hr : verify rightFlag ch.flagHash = true)
    (hwne : wrongFlag ≠ "") (hrne : rightFlag ≠ "")
    (hunsolved : hasSolved s u.id ch.id = false) :
    (ch.published = false →
       submitFlag verify s u.id ch.id rightFlag ip ua
         = (.badRequest "Challenge is not published", s)) ∧
    (ch.published = true →
       (submitFlag verify s u.id ch.id wrongFlag ip ua).1
           = .ok false "Incorrect flag. Try again!" none ∧
       scoreOf (submitFlag verify s u.id ch.id wrongFlag ip ua).2 u.id = some u.score ∧
       (submitFlag verify s u.id ch.id rightFlag ip ua).1
           = .ok true "Congratulations! Flag accepted." none ∧
       pointsAwardedOf (submitFlag verify s u.id ch.id rightFlag ip ua).1 = none ∧
       scoreOf (submitFlag verify s u.id ch.id rightFlag ip ua).2 u.id
           = some (u.score + ch.points) ∧
       hasSolved (submitFlag verify s u.id ch.id rightFlag ip ua).2 u.id ch.id = true ∧
       submitFlag verify (submitFlag verify s u.id ch.id rightFlag ip ua).2
           u.id ch.id rightFlag ip ua
         = (.badRequest "You have already solved this challenge",
            (submitFlag verify s u.id ch.id rightFlag ip ua).2)) := by
  have hsc : scoreOf s u.id = some u.score := by
    unfold scoreOf
    rw [hu]
    rfl
  constructor
  · intro hpub
    unfold submitFlag
    rw [if_neg hrne]
    simp [hch, hpub]
  · intro hpub
    have hwrong : submitFlag verify s u.id ch.id wrongFlag ip ua
        = (.ok false "Incorrect flag. Try again!" none,
           createSubmission s ⟨u.id, ch.id, wrongFlag, false, ip, ua⟩) := by
      unfold submitFlag
      rw [if_neg hwne]
      simp only [hch, hpub, hunsolved, hw, Bool.not_true, Bool.false_eq_true, if_false]
    have hright : submitFlag verify s u.id ch.id rightFlag ip ua
        = (.ok true "Congratulations! Flag accepted." none,
           updateUserScore (createSolve
             (createSubmission s ⟨u.id, ch.id, rightFlag, true, ip, ua⟩) u.id ch.id)
             u.id ch.points) := by
      unfold submitFlag
      rw [if_neg hrne]
      simp only [hch, hpub, hunsolved, hr, Bool.not_true, Bool.false_eq_true,
        if_false, if_true]
    have hs2 : scoreOf (createSolve
        (createSubmission s ⟨u.id, ch.id, rightFlag, true, ip, ua⟩) u.id ch.id) u.id
        = some u.score := by
      simp [hsc]
    have hsolvedX : hasSolved (updateUserScore (createSolve
        (createSubmission s ⟨u.id, ch.id, rightFlag, true, ip, ua⟩) u.id ch.id)
        u.id ch.points) u.id ch.id = true := by
      unfold hasSolved
      simp
    have hchX : getChallenge (updateUserScore (createSolve
        (createSubmission s ⟨u.id, ch.id, rightFlag, true, ip, ua⟩) u.id ch.id)
        u.id ch.points) ch.id = some ch := by
      simp [hch]
    refine ⟨by rw [hwrong], ?_, by rw [hright], by rw [hright]; rfl, ?_, ?_, ?_⟩
    · rw [hwrong]
      simpa using hsc
    · rw [hright]
      exact scoreOf_updateUserScore _ _ _ _ hs2
    · rw [hright]
      exact hsolvedX
    · rw [hright]
      unfold submitFlag
      rw [if_neg hrne]
      simp only [hchX, hpub, hsolvedX, Bool.not_true, Bool.false_eq_true,
        if_false, if_true]

/-- Witness for C6's amended scenario: on the concrete store the first
correct submission raises the score from 0 by the challenge's 100 points. -/
theorem submit_flow_scenario_witness :
    scoreOf (submitFlag eqVerify exampleStore "u1" "c1" "H" "" "").2 "u1"
      = some (exampleUser.score + exampleChallenge.points) := by
  have h := submit_flow_scenario eqVerify exampleStore exampleUser exampleChallenge
    "X" "H" "" "" (by decide) (by decide) (by decide) (by decide) (by decide)
    (by decide) (by decide)
  exact (h.2 (by decide)).2.2.2.2.1

end CTF
